import Mathlib

/-!
Verification development for the autonomous-traders repository.

This file gives a shallow embedding, over `ℚ` for Python floats and `ℤ`
for Python ints, of the account ledger (`src/core/accounts.py`), the
market price service (`src/core/market.py` with its two cache layers
backed by `src/core/database.py`), the trader run loop
(`src/agents/traders.py`) and the trace-id parsing
(`src/utils/tracers.py`), together with theorems settling the spec's
claims about them.

Python dictionaries (insertion-ordered, unique string keys) are embedded
as association lists with in-place update; Python exceptions are embedded
as `Except` results whose error constructors name the spec's error
taxonomy; the pseudo-random and upstream-API effects are embedded as
explicit oracle parameters.
-/

namespace Traders

/-! ## Python dict embedding (insertion-ordered association lists) -/

/-- `d.get(k)` / `d[k]` read: first (unique) binding of `k`, if any. -/
def dictGet {α : Type} : List (String × α) → String → Option α
  | [], _ => none
  | (k', v) :: rest, k => if k' == k then some v else dictGet rest k

/-- `d.get(k, dflt)`. -/
def dictGetD {α : Type} (d : List (String × α)) (k : String) (dflt : α) : α :=
  (dictGet d k).getD dflt

/-- `d[k] = v`: replaces the binding in place if present, else appends
(the insertion-order behaviour of a Python dict). -/
def dictSet {α : Type} : List (String × α) → String → α → List (String × α)
  | [], k, v => [(k, v)]
  | (k', v') :: rest, k, v =>
      if k' == k then (k, v) :: rest else (k', v') :: dictSet rest k v

/-- `del d[k]`. -/
def dictDel {α : Type} (d : List (String × α)) (k : String) : List (String × α) :=
  d.filter (fun p => !(p.1 == k))

/-! ## Account ledger (`src/core/accounts.py`) -/

/-- `INITIAL_BALANCE = 10_000.0`. -/
def INITIAL_BALANCE : ℚ := 10000

/-- `SPREAD = 0.002`. -/
def SPREAD : ℚ := 2 / 1000

/-- The `Transaction` pydantic model. -/
structure Transaction where
  symbol : String
  quantity : ℤ
  price : ℚ
  timestamp : String
  rationale : String
deriving Repr, DecidableEq

/-- `Transaction.total`: `self.quantity * self.price`. -/
def Transaction.total (t : Transaction) : ℚ :=
  (t.quantity : ℚ) * t.price

/-- The `Account` pydantic model. -/
structure Account where
  name : String
  balance : ℚ
  strategy : String
  holdings : List (String × ℤ)
  transactions : List Transaction
  portfolio_value_time_series : List (String × ℚ)
deriving Repr, DecidableEq

/-- The ledger's error taxonomy.  In the source every failure is a
`ValueError` distinguished by message; the constructor names follow the
spec's taxonomy, and `keyError` is the `KeyError` Python raises in
`sell_shares` when `self.holdings[symbol] -= quantity` reads an absent
key. -/
inductive AccountError where
  | invalidAmount
  | insufficientFunds
  | insufficientHoldings
  | unknownSymbol
  | keyError
deriving Repr, DecidableEq

/-- Python `str.lower()`, characterwise (agent names are ASCII). -/
def pyLower (s : String) : String :=
  String.mk (s.data.map Char.toLower)

/-- The fresh-account fields built by `Account.get` when `read_account`
finds no stored record. -/
def Account.create (name : String) : Account :=
  { name := pyLower name
    balance := INITIAL_BALANCE
    strategy := ""
    holdings := []
    transactions := []
    portfolio_value_time_series := [] }

/-- `Account.reset`. -/
def Account.reset (a : Account) (strategy : String) : Account :=
  { a with
    balance := INITIAL_BALANCE
    strategy := strategy
    holdings := []
    transactions := []
    portfolio_value_time_series := [] }

/-- `Account.deposit`: rejects `amount <= 0`, else adds to the balance. -/
def deposit (a : Account) (amount : ℚ) : Except AccountError Account :=
  if amount ≤ 0 then .error .invalidAmount
  else .ok { a with balance := a.balance + amount }

/-- `Account.withdraw`: rejects `amount > self.balance`, else subtracts. -/
def withdraw (a : Account) (amount : ℚ) : Except AccountError Account :=
  if amount > a.balance then .error .insufficientFunds
  else .ok { a with balance := a.balance - amount }

/-- `Account.buy_shares`.  `price` is the value `get_share_price(symbol)`
returned for this call.  The source raises `InsufficientFunds` before the
`price == 0` check, and only mutates (holdings, transaction append,
balance) after both checks. -/
def buy_shares (price : ℚ) (a : Account) (symbol : String) (quantity : ℤ)
    (timestamp rationale : String) : Except AccountError Account :=
  let buy_price := price * (1 + SPREAD)
  let total_cost := buy_price * (quantity : ℚ)
  if total_cost > a.balance then .error .insufficientFunds
  else if price = 0 then .error .unknownSymbol
  else .ok { a with
    holdings := dictSet a.holdings symbol (dictGetD a.holdings symbol 0 + quantity)
    transactions := a.transactions ++
      [{ symbol := symbol, quantity := quantity, price := buy_price
         timestamp := timestamp, rationale := rationale }]
    balance := a.balance - total_cost }

/-- `Account.sell_shares`.  `price` is the value `get_share_price(symbol)`
returned for this call.  After the holdings check the source runs
`self.holdings[symbol] -= quantity`, which raises `KeyError` when the
symbol is absent (reachable only for `quantity ≤ 0`); the entry is deleted
when it reaches zero, the transaction is appended with negated quantity,
and the proceeds are added to the balance. -/
def sell_shares (price : ℚ) (a : Account) (symbol : String) (quantity : ℤ)
    (timestamp rationale : String) : Except AccountError Account :=
  if dictGetD a.holdings symbol 0 < quantity then .error .insufficientHoldings
  else
    let sell_price := price * (1 - SPREAD)
    let total_proceeds := sell_price * (quantity : ℚ)
    match dictGet a.holdings symbol with
    | none => .error .keyError
    | some held =>
      let newQty := held - quantity
      let holdings' :=
        if newQty = 0 then dictDel a.holdings symbol
        else dictSet a.holdings symbol newQty
      .ok { a with
        holdings := holdings'
        transactions := a.transactions ++
          [{ symbol := symbol, quantity := -quantity, price := sell_price
             timestamp := timestamp, rationale := rationale }]
        balance := a.balance + total_proceeds }

/-- `Account.calculate_portfolio_value`: balance plus, for each holding in
insertion order, `get_share_price(symbol) * quantity`; `px` is the price
service at this call. -/
def calculate_portfolio_value (px : String → ℚ) (a : Account) : ℚ :=
  a.holdings.foldl (fun total p => total + px p.1 * (p.2 : ℚ)) a.balance

/-- `Account.calculate_profit_loss`:
`portfolio_value - sum(t.total() for t in transactions) - balance`. -/
def calculate_profit_loss (a : Account) (portfolio_value : ℚ) : ℚ :=
  portfolio_value - (a.transactions.map Transaction.total).sum - a.balance

/-- The state change performed by `Account.report`: it computes the
portfolio value and appends a `(timestamp, value)` sample to the series
(the JSON string it returns carries no further state). -/
def report (px : String → ℚ) (timestamp : String) (a : Account) : Account :=
  let pv := calculate_portfolio_value px a
  { a with portfolio_value_time_series :=
      a.portfolio_value_time_series ++ [(timestamp, pv)] }

/-- `Account.change_strategy`. -/
def change_strategy (a : Account) (strategy : String) : Account :=
  { a with strategy := strategy }

/-! ## Committed operation sequences on one account

Each trade-shaped operation carries the price the price service resolved
for that call (`report` carries the whole price map, since it values every
holding). -/

/-- One ledger operation, as invoked through the account server. -/
inductive AccountOp where
  | deposit (amount : ℚ)
  | withdraw (amount : ℚ)
  | buy (symbol : String) (quantity : ℤ) (price : ℚ) (timestamp rationale : String)
  | sell (symbol : String) (quantity : ℤ) (price : ℚ) (timestamp rationale : String)
  | changeStrategy (strategy : String)
  | reset (strategy : String)
  | report (px : String → ℚ) (timestamp : String)

/-- Dispatch one operation on the account. -/
def applyOp (a : Account) : AccountOp → Except AccountError Account
  | .deposit amount => deposit a amount
  | .withdraw amount => withdraw a amount
  | .buy symbol q price ts r => buy_shares price a symbol q ts r
  | .sell symbol q price ts r => sell_shares price a symbol q ts r
  | .changeStrategy s => .ok (change_strategy a s)
  | .reset s => .ok (Account.reset a s)
  | .report px ts => .ok (report px ts a)

/-- Run a sequence of operations, committing each; the whole run fails on
the first operation that raises. -/
def runOps (a : Account) : List AccountOp → Except AccountError Account
  | [] => .ok a
  | op :: rest =>
    match applyOp a op with
    | .ok a' => runOps a' rest
    | .error e => .error e

/-- `true` unless the operation is a sell with a negative quantity or a
negative resolved price. -/
def sellSafe : AccountOp → Bool
  | .sell _ q price _ _ => decide (0 ≤ q) && decide (0 ≤ price)
  | _ => true

/-! ## Market price service (`src/core/market.py` + `src/core/database.py`)

`get_market_for_prior_date` is wrapped in `@lru_cache(maxsize=2)` and its
body reads the durable `market` table (`read_market`) before falling back
to one upstream full-market fetch (`get_all_share_prices_polygon_eod`)
whose result it writes back (`write_market`).  The embedding threads the
two cache layers and an upstream-fetch counter through an explicit state;
`upstream` is the symbol→price snapshot the upstream fetch would return. -/

/-- A symbol→price snapshot, the value type of both cache layers. -/
abbrev MarketData := List (String × ℚ)

/-- The mutable state of the price service: the in-process
`lru_cache(maxsize=2)` memo (most recent first), the durable `market`
table, and how many upstream full-market fetches have happened. -/
structure MarketState where
  lru : List (String × MarketData)
  db : List (String × MarketData)
  fetches : ℕ
deriving Repr, DecidableEq

/-- Python truthiness of `read_market`'s result: `None` and the empty
dict are falsy. -/
def marketTruthy : Option MarketData → Bool
  | none => false
  | some md => !md.isEmpty

/-- `lru_cache` insertion: the key becomes most recent and at most
`maxsize = 2` entries are kept. -/
def lruPut (lru : List (String × MarketData)) (k : String) (v : MarketData) :
    List (String × MarketData) :=
  ((k, v) :: lru.filter (fun p => !(p.1 == k))).take 2

/-- `get_market_for_prior_date(today)`: serve from the `lru_cache` memo if
present (refreshing recency); otherwise run the body — `read_market`, and
on a falsy result one upstream fetch followed by `write_market` — and
memoize the result. -/
def get_market_for_prior_date (upstream : MarketData) (st : MarketState)
    (today : String) : MarketData × MarketState :=
  match dictGet st.lru today with
  | some md => (md, { st with lru := lruPut st.lru today md })
  | none =>
    let cached := dictGet st.db today
    if marketTruthy cached then
      let md := cached.getD []
      (md, { st with lru := lruPut st.lru today md })
    else
      let md := upstream
      (md, { lru := lruPut st.lru today md
             db := dictSet st.db today md
             fetches := st.fetches + 1 })

/-- `get_share_price_polygon_eod(symbol)`:
`get_market_for_prior_date(today).get(symbol, 0.0)`. -/
def get_share_price_polygon_eod (upstream : MarketData) (st : MarketState)
    (today symbol : String) : ℚ × MarketState :=
  let r := get_market_for_prior_date upstream st today
  (dictGetD r.1 symbol 0, r.2)

/-- A sequence of end-of-day price lookups on one calendar date, one per
listed symbol, threading the cache state. -/
def runEodCalls (upstream : MarketData) (today : String) :
    List String → MarketState → MarketState
  | [], st => st
  | symbol :: rest, st =>
      runEodCalls upstream today rest
        (get_share_price_polygon_eod upstream st today symbol).2

/-- Truthiness of `polygon_api_key = os.getenv("POLYGON_API_KEY")`:
unset (`None`) and the empty string are both falsy. -/
def keyTruthy : Option String → Bool
  | none => false
  | some k => !(k == "")

/-- Whether an embedded Python call raised. -/
def isErr {ε α : Type} : Except ε α → Bool
  | .error _ => true
  | .ok _ => false

/-- `random.randint(1, 100)` for a PRNG draw `rng`: some integer in
`[1, 100]`; the embedding fixes the representative `1 + rng % 100`, which
realizes exactly the values `randint` can produce. -/
def randint1to100 (rng : ℕ) : ℤ :=
  1 + (rng % 100 : ℕ)

/-- `get_share_price(symbol)`: with a truthy API key, try the
plan-appropriate Polygon lookup (`attempt` is that call's outcome) and
swallow any exception; without a key, or on an exception, return
`float(random.randint(1, 100))`. -/
def get_share_price (apiKey : Option String) (attempt : Except String ℚ)
    (rng : ℕ) : ℚ :=
  if keyTruthy apiKey then
    match attempt with
    | .ok price => price
    | .error _ => (randint1to100 rng : ℚ)
  else (randint1to100 rng : ℚ)

/-! ## Trader run loop (`src/agents/traders.py`) -/

/-- The two operating modes of §4.3 of the spec; `Trader.__init__` encodes
them as the `do_trade` flag, `True` meaning a trading (prospecting) run and
`False` a rebalancing run. -/
inductive Mode where
  | prospecting
  | rebalancing
deriving Repr, DecidableEq

/-- The unconditional mode alternation. -/
def Mode.toggle : Mode → Mode
  | .prospecting => .rebalancing
  | .rebalancing => .prospecting

/-- The trader state `Trader.__init__` sets up (the lazily created
`agent` handle is external and carries no ledger state). -/
structure Trader where
  name : String
  lastname : String
  model_name : String
  do_trade : Bool
deriving Repr, DecidableEq

/-- `Trader.__init__(name, lastname, model_name)`: `do_trade = True`. -/
def Trader.init (name lastname model_name : String) : Trader :=
  { name := name, lastname := lastname, model_name := model_name
    do_trade := true }

/-- The operating mode the `do_trade` flag encodes. -/
def Trader.mode (t : Trader) : Mode :=
  if t.do_trade then .prospecting else .rebalancing

/-- What one `run_with_trace()` invocation did: finished, or raised with
some message.  (`except Exception` in the source catches every error the
run-cycle raises.) -/
inductive RunOutcome where
  | success
  | failure (message : String)
deriving Repr, DecidableEq

/-- `Trader.run()`: `run_with_trace()` inside `try/except Exception`
(the caught error is only printed), then unconditionally
`self.do_trade = not self.do_trade`.  The second component is the error
the call lets escape to `trading_floor` — always `none`. -/
def Trader.run (t : Trader) (outcome : RunOutcome) : Trader × Option String :=
  match outcome with
  | .success => ({ t with do_trade := !t.do_trade }, none)
  | .failure _ => ({ t with do_trade := !t.do_trade }, none)

/-! ## Trace-id parsing (`src/utils/tracers.py`) -/

/-- Python `str.split(sep)` for a one-character separator, on the
character list of the string. -/
def pySplitChar (sep : Char) : List Char → List (List Char)
  | [] => [[]]
  | c :: rest =>
    let r := pySplitChar sep rest
    if c == sep then [] :: r
    else
      match r with
      | [] => [[c]]
      | h :: t => (c :: h) :: t

/-- `LogTracer.get_name` on a `trace_id` string:
`trace_id.split("_")[1]` — an `IndexError` when the string has no
underscore — then, if `'0' in name`, `name.split("0")[0]`, else `None`. -/
def get_name (trace_id : String) : Except String (Option String) :=
  match (pySplitChar ('_') trace_id.data)[1]? with
  | none => .error "IndexError"
  | some name =>
    if name.contains ('0') then
      .ok (some (String.mk ((pySplitChar ('0') name).headD [])))
    else .ok none

/-! ## Helper lemmas -/

/-- Reading back a key just written. -/
theorem dictGet_dictSet_self {α : Type} (d : List (String × α)) (k : String)
    (v : α) : dictGet (dictSet d k v) k = some v := by
  induction d with
  | nil => simp [dictSet, dictGet]
  | cons p rest ih =>
    by_cases h : p.1 == k
    · simp [dictSet, dictGet, h]
    · simpa [dictSet, dictGet, h] using ih

/-- A fresh account, concretely. -/
theorem create_w : Account.create "w" = ⟨"w", 10000, "", [], [], []⟩ := rfl

/-! ## C1 — valid buys -/

/-- C1: for a buy whose resolved price is non-zero, with positive
requested quantity, and whose spread-adjusted cost fits in the balance,
`buy_shares` commits: the balance drops by exactly
`price * (1 + SPREAD) * quantity`, the symbol's holding rises by
`quantity`, and exactly one transaction is appended, carrying the positive
requested quantity and exactly the spread-adjusted price. -/
theorem buy_shares_valid_postconditions
    (price : ℚ) (a : Account) (symbol : String) (quantity : ℤ)
    (timestamp rationale : String)
    (hp : price ≠ 0) (hq : 0 < quantity)
    (hcost : price * (1 + SPREAD) * (quantity : ℚ) ≤ a.balance) :
    ∃ a' : Account,
      buy_shares price a symbol quantity timestamp rationale = .ok a'
      ∧ a'.balance = a.balance - price * (1 + SPREAD) * (quantity : ℚ)
      ∧ dictGetD a'.holdings symbol 0 = dictGetD a.holdings symbol 0 + quantity
      ∧ ∃ t : Transaction,
          a'.transactions = a.transactions ++ [t]
          ∧ t.quantity = quantity
          ∧ 0 < t.quantity
          ∧ t.price = price * (1 + SPREAD) := by
  unfold buy_shares
  rw [if_neg (not_lt.mpr hcost), if_neg hp]
  refine ⟨_, rfl, rfl, ?_, _, rfl, rfl, hq, rfl⟩
  simp [dictGetD, dictGet_dictSet_self]

/-- Witness for C1: buying 5 shares at resolved price 100 from a fresh
account. -/
theorem buy_shares_valid_postconditions_witness :
    (100 : ℚ) ≠ 0 ∧ (0 : ℤ) < 5
    ∧ (100 : ℚ) * (1 + SPREAD) * ((5 : ℤ) : ℚ) ≤ (Account.create "w").balance
    ∧ ∃ a' : Account,
        buy_shares 100 (Account.create "w") "AAPL" 5 "t" "reason" = .ok a'
        ∧ a'.balance = (Account.create "w").balance
            - 100 * (1 + SPREAD) * ((5 : ℤ) : ℚ)
        ∧ dictGetD a'.holdings "AAPL" 0
            = dictGetD (Account.create "w").holdings "AAPL" 0 + 5
        ∧ ∃ t : Transaction,
            a'.transactions = (Account.create "w").transactions ++ [t]
            ∧ t.quantity = 5
            ∧ 0 < t.quantity
            ∧ t.price = 100 * (1 + SPREAD) :=
  ⟨by norm_num, by decide,
   by rw [create_w]; norm_num [SPREAD],
   buy_shares_valid_postconditions 100 (Account.create "w") "AAPL" 5 "t"
     "reason" (by norm_num) (by decide)
     (by rw [create_w]; norm_num [SPREAD])⟩

/-! ## C2 — buy/sell validation failures commit nothing -/

/-- C2: a buy whose total cost exceeds the balance fails with
`insufficientFunds`, and a sell with `holdings.get(symbol, 0) < quantity`
fails with `insufficientHoldings`; in both cases the call produces no
successor account (in the source the raise precedes every mutation, so
nothing is observable or persisted). -/
theorem insufficient_errors_commit_nothing
    (price : ℚ) (a : Account) (symbol : String) (quantity : ℤ)
    (timestamp rationale : String) :
    (price * (1 + SPREAD) * (quantity : ℚ) > a.balance →
      buy_shares price a symbol quantity timestamp rationale
        = .error .insufficientFunds)
    ∧ (dictGetD a.holdings symbol 0 < quantity →
      sell_shares price a symbol quantity timestamp rationale
        = .error .insufficientHoldings) := by
  constructor
  · intro hcost
    unfold buy_shares
    rw [if_pos hcost]
  · intro hheld
    unfold sell_shares
    rw [if_pos hheld]

/-- Witness for C2: an over-budget buy and an over-held sell on a fresh
account. -/
theorem insufficient_errors_commit_nothing_witness :
    ((100 : ℚ) * (1 + SPREAD) * ((200 : ℤ) : ℚ) > (Account.create "w").balance
      → buy_shares 100 (Account.create "w") "AAPL" 200 "t" "reason"
          = .error .insufficientFunds)
    ∧ (dictGetD (Account.create "w").holdings "AAPL" 0 < (5 : ℤ)
      → sell_shares 100 (Account.create "w") "AAPL" 5 "t" "reason"
          = .error .insufficientHoldings)
    ∧ (100 : ℚ) * (1 + SPREAD) * ((200 : ℤ) : ℚ) > (Account.create "w").balance
    ∧ dictGetD (Account.create "w").holdings "AAPL" 0 < (5 : ℤ) :=
  ⟨(insufficient_errors_commit_nothing 100 (Account.create "w") "AAPL" 200
      "t" "reason").1,
   (insufficient_errors_commit_nothing 100 (Account.create "w") "AAPL" 5
      "t" "reason").2,
   by rw [create_w]; norm_num [SPREAD],
   by rw [create_w]; decide⟩

/-! ## C4 — the profit/loss formula -/

/-- C4: `calculate_profit_loss` returns exactly
`portfolio_value - Σ (quantity * price) - balance`, the transaction sum
taken over the signed quantities (sells contribute negatively), with the
current balance subtracted on top of the signed notionals. -/
theorem profit_loss_formula (a : Account) (portfolio_value : ℚ) :
    calculate_profit_loss a portfolio_value
      = portfolio_value
        - (a.transactions.map (fun t => (t.quantity : ℚ) * t.price)).sum
        - a.balance := rfl

/-! ## C10 — withdraw accepts negative amounts -/

/-- C10: `withdraw` only checks `amount > balance`, so every strictly
negative amount is accepted on a non-negative balance and increases the
balance by `|amount|`, while `deposit` rejects every non-positive
amount. -/
theorem withdraw_accepts_negative_amounts
    (a : Account) (amount : ℚ) (hneg : amount < 0) (hb : 0 ≤ a.balance) :
    (∃ a' : Account, withdraw a amount = .ok a'
      ∧ a'.balance = a.balance + |amount|)
    ∧ ∀ d : ℚ, d ≤ 0 → deposit a d = .error .invalidAmount := by
  constructor
  · refine ⟨{ a with balance := a.balance - amount }, ?_, ?_⟩
    · unfold withdraw
      rw [if_neg (not_lt.mpr (le_of_lt (lt_of_lt_of_le hneg hb)))]
    · show a.balance - amount = a.balance + |amount|
      rw [abs_of_neg hneg]
      ring
  · intro d hd
    unfold deposit
    rw [if_pos hd]

/-- Witness for C10: withdrawing −7 from a fresh account. -/
theorem withdraw_accepts_negative_amounts_witness :
    (-7 : ℚ) < 0 ∧ (0 : ℚ) ≤ (Account.create "w").balance
    ∧ (∃ a' : Account, withdraw (Account.create "w") (-7) = .ok a'
        ∧ a'.balance = (Account.create "w").balance + |(-7 : ℚ)|)
    ∧ ∀ d : ℚ, d ≤ 0 → deposit (Account.create "w") d = .error .invalidAmount :=
  ⟨by norm_num, by rw [create_w]; norm_num,
   (withdraw_accepts_negative_amounts (Account.create "w") (-7)
      (by norm_num) (by rw [create_w]; norm_num)).1,
   (withdraw_accepts_negative_amounts (Account.create "w") (-7)
      (by norm_num) (by rw [create_w]; norm_num)).2⟩

/-! ## C3 — balance non-negativity

The claimed invariant fails on the code: `sell_shares` accepts a negative
quantity whenever the symbol is held (the guard `holdings.get(symbol, 0) <
quantity` is satisfied), and then adds the negative proceeds to the
balance, which can drive it below zero.  The invariant does hold once every
sell carries a non-negative quantity and a non-negative resolved price. -/

/-- One committed operation on a non-negative balance keeps it
non-negative, provided a sell's quantity and resolved price are
non-negative. -/
theorem applyOp_balance_nonneg (a : Account) (op : AccountOp) (a' : Account)
    (hb : 0 ≤ a.balance) (hs : sellSafe op = true)
    (h : applyOp a op = .ok a') : 0 ≤ a'.balance := by
  cases op with
  | deposit amount =>
    simp only [applyOp, deposit] at h
    split at h
    · exact absurd h (by simp)
    · rw [Except.ok.injEq] at h
      subst h
      rename_i hpos
      simp only [not_le] at hpos
      show 0 ≤ a.balance + amount
      linarith
  | withdraw amount =>
    simp only [applyOp, withdraw] at h
    split at h
    · exact absurd h (by simp)
    · rw [Except.ok.injEq] at h
      subst h
      rename_i hle
      simp only [gt_iff_lt, not_lt] at hle
      show 0 ≤ a.balance - amount
      linarith
  | buy symbol q price ts r =>
    simp only [applyOp, buy_shares] at h
    split at h
    · exact absurd h (by simp)
    · split at h
      · exact absurd h (by simp)
      · rw [Except.ok.injEq] at h
        subst h
        rename_i hcost _
        simp only [gt_iff_lt, not_lt] at hcost
        show 0 ≤ a.balance - price * (1 + SPREAD) * (q : ℚ)
        linarith
  | sell symbol q price ts r =>
    simp only [sellSafe, Bool.and_eq_true, decide_eq_true_eq] at hs
    obtain ⟨hq, hprice⟩ := hs
    simp only [applyOp, sell_shares] at h
    split at h
    · exact absurd h (by simp)
    · split at h
      · exact absurd h (by simp)
      · rw [Except.ok.injEq] at h
        subst h
        show 0 ≤ a.balance + price * (1 - SPREAD) * (q : ℚ)
        have hq' : (0 : ℚ) ≤ (q : ℚ) := by exact_mod_cast hq
        have hsp : (0 : ℚ) ≤ 1 - SPREAD := by norm_num [SPREAD]
        have hprod : (0 : ℚ) ≤ price * (1 - SPREAD) * (q : ℚ) :=
          mul_nonneg (mul_nonneg hprice hsp) hq'
        linarith
  | changeStrategy s =>
    simp only [applyOp, change_strategy, Except.ok.injEq] at h
    subst h
    exact hb
  | reset s =>
    simp only [applyOp, Account.reset, Except.ok.injEq] at h
    subst h
    show (0 : ℚ) ≤ INITIAL_BALANCE
    norm_num [INITIAL_BALANCE]
  | report px ts =>
    simp only [applyOp, report, Except.ok.injEq] at h
    subst h
    exact hb

/-- Every committed prefix of a sell-safe run keeps the balance
non-negative. -/
theorem runOps_balance_nonneg (ops : List AccountOp) :
    ∀ a : Account, 0 ≤ a.balance → (∀ op ∈ ops, sellSafe op = true) →
      ∀ a' : Account, runOps a ops = .ok a' → 0 ≤ a'.balance := by
  induction ops with
  | nil =>
    intro a hb _ a' h
    simp only [runOps, Except.ok.injEq] at h
    subst h
    exact hb
  | cons op rest ih =>
    intro a hb hs a' h
    simp only [runOps] at h
    cases hstep : applyOp a op with
    | error e => rw [hstep] at h; exact absurd h (by simp)
    | ok a1 =>
      rw [hstep] at h
      exact ih a1
        (applyOp_balance_nonneg a op a1 hb (hs op (by simp)) hstep)
        (fun op' hop' => hs op' (List.mem_cons_of_mem _ hop')) a' h

/-- Counterexample to C3: starting from a fresh account, buy one AAPL at
resolved price 100, withdraw the whole remaining balance, then sell a
quantity of −1 at resolved price 100.  Every operation commits without
raising, yet the final balance is −499/5 < 0. -/
theorem balance_nonneg_counterexample :
    runOps (Account.create "w")
        [.buy "AAPL" 1 100 "t1" "r1",
         .withdraw (49499 / 5),
         .sell "AAPL" (-1) 100 "t2" "r2"]
      = .ok ⟨"w", -(499 / 5), "",
             [("AAPL", 2)],
             [⟨"AAPL", 1, 501 / 5, "t1", "r1"⟩,
              ⟨"AAPL", 1, 499 / 5, "t2", "r2"⟩],
             []⟩
    ∧ (-(499 / 5) : ℚ) < 0 := by
  constructor
  · rw [create_w]
    norm_num [runOps, applyOp, buy_shares, sell_shares, withdraw,
      SPREAD, dictSet, dictGetD, dictGet, dictDel]
  · norm_num

/-- C3 (amended): for every sequence of committed operations applied to a
freshly created account, the balance is non-negative after every committed
operation, provided every sell in the sequence has a non-negative quantity
and a non-negative resolved price (the code accepts negative-quantity
sells, which break the invariant, see the counterexample). -/
theorem balance_nonneg_of_sell_safe
    (name : String) (ops : List AccountOp)
    (hsafe : ∀ op ∈ ops, sellSafe op = true)
    (a' : Account) (h : runOps (Account.create name) ops = .ok a') :
    0 ≤ a'.balance :=
  runOps_balance_nonneg ops (Account.create name)
    (by show (0 : ℚ) ≤ INITIAL_BALANCE; norm_num [INITIAL_BALANCE])
    hsafe a' h

/-- Witness for the amended C3: a deposit of 5 on a fresh account. -/
theorem balance_nonneg_of_sell_safe_witness :
    (∀ op ∈ [AccountOp.deposit 5], sellSafe op = true)
    ∧ runOps (Account.create "w") [AccountOp.deposit 5]
        = .ok ⟨"w", 10005, "", [], [], []⟩
    ∧ 0 ≤ (Account.mk "w" 10005 "" [] [] []).balance :=
  ⟨by decide,
   by rw [create_w]; norm_num [runOps, applyOp, deposit],
   balance_nonneg_of_sell_safe "w" [AccountOp.deposit 5] (by decide)
     (Account.mk "w" 10005 "" [] [] [])
     (by rw [create_w]; norm_num [runOps, applyOp, deposit])⟩

/-! ## C5 — price fallback never raises and stays in [1, 100] -/

/-- The fallback draw is always in `[1, 100]`. -/
theorem randint1to100_mem (rng : ℕ) :
    1 ≤ randint1to100 rng ∧ randint1to100 rng ≤ 100 := by
  unfold randint1to100
  omega

/-- C5: when no truthy pricing credential is configured, or when the one
upstream lookup a call performs raises, `get_share_price` returns a value
in the closed range `[1, 100]`; being a total function into `ℚ`, it
propagates no error. -/
theorem get_share_price_fallback_in_range
    (apiKey : Option String) (attempt : Except String ℚ) (rng : ℕ)
    (h : keyTruthy apiKey = true → isErr attempt = true) :
    1 ≤ get_share_price apiKey attempt rng
    ∧ get_share_price apiKey attempt rng ≤ 100 := by
  have hfall : 1 ≤ ((randint1to100 rng : ℤ) : ℚ)
      ∧ ((randint1to100 rng : ℤ) : ℚ) ≤ 100 := by
    obtain ⟨h1, h2⟩ := randint1to100_mem rng
    constructor <;> exact_mod_cast (by assumption)
  unfold get_share_price
  cases hkey : keyTruthy apiKey with
  | false => simpa using hfall
  | true =>
    cases attempt with
    | ok price => exact absurd (h hkey) (by simp [isErr])
    | error e => simpa using hfall

/-- Witness for C5: no API key configured, the (hypothetical) upstream
attempt raising. -/
theorem get_share_price_fallback_in_range_witness :
    (keyTruthy none = true → isErr (Except.error "network down" : Except String ℚ) = true)
    ∧ 1 ≤ get_share_price none (Except.error "network down") 7
    ∧ get_share_price none (Except.error "network down") 7 ≤ 100 :=
  ⟨by decide,
   (get_share_price_fallback_in_range none (Except.error "network down") 7
      (by decide)).1,
   (get_share_price_fallback_in_range none (Except.error "network down") 7
      (by decide)).2⟩

/-! ## C7 — unknown symbols price to 0.0 and buys reject them -/

/-- C7: in the end-of-day tier, a symbol absent from the date's resolved
snapshot prices to exactly `0`, and a buy at that resolved price from an
account with non-negative balance and non-negative quantity fails with
`unknownSymbol` — not `insufficientFunds` — producing no successor
account. -/
theorem unknown_symbol_prices_zero_and_buy_rejected
    (upstream : MarketData) (st : MarketState) (today symbol : String)
    (habsent : dictGet (get_market_for_prior_date upstream st today).1 symbol
      = none)
    (a : Account) (hb : 0 ≤ a.balance) (quantity : ℤ) (_hq : 0 ≤ quantity)
    (timestamp rationale : String) :
    (get_share_price_polygon_eod upstream st today symbol).1 = 0
    ∧ buy_shares (get_share_price_polygon_eod upstream st today symbol).1
        a symbol quantity timestamp rationale = .error .unknownSymbol := by
  have hzero : (get_share_price_polygon_eod upstream st today symbol).1 = 0 := by
    unfold get_share_price_polygon_eod
    simp [dictGetD, habsent]
  refine ⟨hzero, ?_⟩
  rw [hzero]
  unfold buy_shares
  rw [if_neg (by simpa using hb), if_pos rfl]

/-- Witness for C7: a one-symbol snapshot in the durable store and a buy
request for a symbol outside it. -/
theorem unknown_symbol_prices_zero_and_buy_rejected_witness :
    dictGet (get_market_for_prior_date [("SPY", (100 : ℚ))]
        ⟨[], [("2024-11-28", [("SPY", 100)])], 0⟩ "2024-11-28").1 "ZZZZ" = none
    ∧ (0 : ℚ) ≤ (Account.create "w").balance ∧ (0 : ℤ) ≤ 5
    ∧ (get_share_price_polygon_eod [("SPY", (100 : ℚ))]
        ⟨[], [("2024-11-28", [("SPY", 100)])], 0⟩ "2024-11-28" "ZZZZ").1 = 0
    ∧ buy_shares
        (get_share_price_polygon_eod [("SPY", (100 : ℚ))]
          ⟨[], [("2024-11-28", [("SPY", 100)])], 0⟩ "2024-11-28" "ZZZZ").1
        (Account.create "w") "ZZZZ" 5 "t" "reason" = .error .unknownSymbol :=
  ⟨rfl, by rw [create_w]; norm_num, by decide,
   (unknown_symbol_prices_zero_and_buy_rejected [("SPY", 100)]
      ⟨[], [("2024-11-28", [("SPY", 100)])], 0⟩ "2024-11-28" "ZZZZ" rfl
      (Account.create "w") (by rw [create_w]; norm_num) 5 (by decide)
      "t" "reason").1,
   (unknown_symbol_prices_zero_and_buy_rejected [("SPY", 100)]
      ⟨[], [("2024-11-28", [("SPY", 100)])], 0⟩ "2024-11-28" "ZZZZ" rfl
      (Account.create "w") (by rw [create_w]; norm_num) 5 (by decide)
      "t" "reason").2⟩

/-! ## C8 — run-cycle errors are swallowed and the mode always toggles -/

/-- C8: `Trader.run` propagates no error for any run-cycle outcome,
toggles the operating mode after every attempt — success or failure — and
a freshly constructed trader starts in prospecting (`do_trade = True`)
mode. -/
theorem trader_run_swallows_and_toggles :
    (∀ (t : Trader) (outcome : RunOutcome),
        (t.run outcome).2 = none
        ∧ (t.run outcome).1.mode = t.mode.toggle
        ∧ (t.run outcome).1 = { t with do_trade := !t.do_trade })
    ∧ ∀ name lastname model_name : String,
        (Trader.init name lastname model_name).mode = Mode.prospecting := by
  constructor
  · intro t outcome
    cases outcome <;>
      refine ⟨rfl, ?_, rfl⟩ <;>
      · cases hflag : t.do_trade <;>
          simp [Trader.run, Trader.mode, Mode.toggle, hflag]
  · intro name lastname model_name
    rfl

/-! ## C9 — trace-id parsing raises on ids without an underscore

The spec requires `get_name` never to raise, and the source's own
docstring says it returns the trader name or `None`; but
`trace_id.split("_")[1]` raises `IndexError` whenever the id contains no
underscore, so the code diverges from both on such inputs. -/

/-- C9 (code bug): on the underscore-free id `"malformed"`, `get_name`
raises `IndexError` instead of returning `None`; when the underscore is
present but the `'0'` delimiter is absent it does return `None`, and on a
well-formed id it returns the embedded name. -/
theorem get_name_raises_without_underscore :
    get_name "malformed" = .error "IndexError"
    ∧ get_name "trace_invalid_format" = .ok none
    ∧ get_name "trace_warren0abc123" = .ok (some "warren") :=
  ⟨rfl, rfl, rfl⟩

/-! ## C6 — at most one upstream fetch per calendar date -/

/-- The key just put into the `lru_cache` memo is readable. -/
theorem dictGet_lruPut (lru : List (String × MarketData)) (k : String)
    (v : MarketData) : dictGet (lruPut lru k v) k = some v := by
  unfold lruPut
  cases lru.filter (fun p => !(p.1 == k)) with
  | nil => simp [dictGet]
  | cons p rest => simp [dictGet]

/-- Every call leaves its date memoized in the in-process cache. -/
theorem gm_memoizes (upstream : MarketData) (st : MarketState)
    (today : String) :
    dictGet (get_market_for_prior_date upstream st today).2.lru today
      = some (get_market_for_prior_date upstream st today).1 := by
  unfold get_market_for_prior_date
  cases dictGet st.lru today with
  | some md => simpa using dictGet_lruPut st.lru today md
  | none =>
    by_cases hdb : marketTruthy (dictGet st.db today) = true
    · simpa [hdb] using dictGet_lruPut st.lru today ((dictGet st.db today).getD [])
    · simp only [Bool.not_eq_true] at hdb
      simpa [hdb] using dictGet_lruPut st.lru today upstream

/-- One call performs at most one upstream fetch. -/
theorem gm_fetches_le (upstream : MarketData) (st : MarketState)
    (today : String) :
    (get_market_for_prior_date upstream st today).2.fetches
      ≤ st.fetches + 1 := by
  unfold get_market_for_prior_date
  cases dictGet st.lru today with
  | some md => simp
  | none =>
    by_cases hdb : marketTruthy (dictGet st.db today) = true
    · simp [hdb]
    · simp only [Bool.not_eq_true] at hdb
      simp [hdb]

/-- A call whose date is already memoized fetches nothing. -/
theorem gm_memo_hit_fetches (upstream : MarketData) (st : MarketState)
    (today : String) (h : (dictGet st.lru today).isSome = true) :
    (get_market_for_prior_date upstream st today).2.fetches = st.fetches := by
  unfold get_market_for_prior_date
  cases hmem : dictGet st.lru today with
  | some md => simp
  | none => rw [hmem] at h; exact absurd h (by simp)

/-- The cache state a price lookup leaves behind is that of the snapshot
lookup. -/
theorem eod_state (upstream : MarketData) (st : MarketState)
    (today symbol : String) :
    (get_share_price_polygon_eod upstream st today symbol).2
      = (get_market_for_prior_date upstream st today).2 := rfl

/-- Once the date is memoized in-process, any number of further same-date
lookups performs no upstream fetch at all. -/
theorem runEodCalls_memo_hot (upstream : MarketData) (today : String)
    (symbols : List String) :
    ∀ st : MarketState, (dictGet st.lru today).isSome = true →
      (runEodCalls upstream today symbols st).fetches = st.fetches := by
  induction symbols with
  | nil => intro st _; rfl
  | cons symbol rest ih =>
    intro st hhot
    show (runEodCalls upstream today rest
        (get_share_price_polygon_eod upstream st today symbol).2).fetches
      = st.fetches
    rw [eod_state, ih _ (by rw [gm_memoizes]; rfl),
      gm_memo_hit_fetches upstream st today hhot]

/-- C6: across any number of same-date end-of-day price lookups, the
upstream full-market fetch happens at most once; and on a true first miss
(neither cache layer holds the date) the first lookup fetches exactly
once, populates both the in-process memo and the durable store with the
upstream snapshot, and every subsequent same-date lookup is served from
cache with no further upstream fetch. -/
theorem eod_upstream_fetch_at_most_once
    (upstream : MarketData) (today : String) (st : MarketState) :
    (∀ symbols : List String,
        (runEodCalls upstream today symbols st).fetches ≤ st.fetches + 1)
    ∧ (∀ symbol : String,
        dictGet st.lru today = none →
        marketTruthy (dictGet st.db today) = false →
        (get_share_price_polygon_eod upstream st today symbol).2.fetches
            = st.fetches + 1
        ∧ dictGet (get_share_price_polygon_eod upstream st today symbol).2.lru
            today = some upstream
        ∧ dictGet (get_share_price_polygon_eod upstream st today symbol).2.db
            today = some upstream
        ∧ ∀ more : List String,
            (runEodCalls upstream today more
                (get_share_price_polygon_eod upstream st today symbol).2).fetches
              = st.fetches + 1) := by
  constructor
  · intro symbols
    cases symbols with
    | nil => exact Nat.le_succ _
    | cons symbol rest =>
      show (runEodCalls upstream today rest
          (get_share_price_polygon_eod upstream st today symbol).2).fetches
        ≤ st.fetches + 1
      rw [eod_state, runEodCalls_memo_hot upstream today rest _
        (by rw [gm_memoizes]; rfl)]
      exact gm_fetches_le upstream st today
  · intro symbol hlru hdb
    have hstep : (get_market_for_prior_date upstream st today).2
        = { lru := lruPut st.lru today upstream
            db := dictSet st.db today upstream
            fetches := st.fetches + 1 } := by
      unfold get_market_for_prior_date
      rw [hlru]
      simp [hdb]
    refine ⟨?_, ?_, ?_, ?_⟩
    · rw [eod_state, hstep]
    · rw [eod_state, hstep]
      exact dictGet_lruPut st.lru today upstream
    · rw [eod_state, hstep]
      exact dictGet_dictSet_self st.db today upstream
    · intro more
      rw [eod_state, runEodCalls_memo_hot upstream today more _
        (by rw [gm_memoizes]; rfl), hstep]

/-- Witness for C6: a cold state, one first lookup for SPY on 2024-11-28,
then two more same-date lookups; the fetch counter ends at 1. -/
theorem eod_upstream_fetch_at_most_once_witness :
    dictGet (⟨[], [], 0⟩ : MarketState).lru "2024-11-28" = none
    ∧ marketTruthy (dictGet (⟨[], [], 0⟩ : MarketState).db "2024-11-28") = false
    ∧ (runEodCalls [("SPY", (100 : ℚ))] "2024-11-28" ["SPY", "AAPL", "SPY"]
        ⟨[], [], 0⟩).fetches ≤ 0 + 1
    ∧ (∀ more : List String,
        (runEodCalls [("SPY", (100 : ℚ))] "2024-11-28" more
            (get_share_price_polygon_eod [("SPY", (100 : ℚ))] ⟨[], [], 0⟩
              "2024-11-28" "SPY").2).fetches
          = 0 + 1) :=
  ⟨rfl, rfl,
   (eod_upstream_fetch_at_most_once [("SPY", 100)] "2024-11-28"
      ⟨[], [], 0⟩).1 ["SPY", "AAPL", "SPY"],
   ((eod_upstream_fetch_at_most_once [("SPY", 100)] "2024-11-28"
      ⟨[], [], 0⟩).2 "SPY" rfl rfl).2.2.2⟩

end Traders
